import Mathlib

/-!
# Verification of the Relevance Scoring & Lightweight Static Extraction Engine

Shallow embedding of the scoring/analysis core of the codebase-assistant
repository (`agent.py` and `main_3.py`) together with proofs of the frozen
claims about it.

Conventions of the embedding:
* Python strings are Lean `String`s; all operations are implemented over
  `String.data : List Char` by structural recursion so that concrete runs
  reduce inside the kernel.
* Python `float` relevance scores are modelled as `Int`: every claim under
  verification is about how scores are combined, filtered and ordered, never
  about rounding, so an exact numeric type is a faithful model.
* Filesystem state is passed explicitly: a file is its (relative) path plus
  its content, where a content of `none` stands for bytes that are not
  decodable as text.  `read_text(..., errors="ignore")` on such a file is
  modelled as returning the empty string, per the specification's
  "content treated as empty".
* Fallible operations (`Path.read_text` on a directory raising
  `IsADirectoryError`) return `Except`.
-/

/-! ## Python string primitives -/

/-- Python's whitespace test for `str.strip()` / `str.split()` / regex `\s`
(the ASCII part; all scanned inputs in this development are ASCII). -/
def pyIsSpace (c : Char) : Bool :=
  c = ' ' || c = '\t' || c = '\n' || c = '\r' || c = '\x0b' || c = '\x0c'

/-- Python `str.strip()` on a character list: drop whitespace from both ends. -/
def pyStripL (s : List Char) : List Char :=
  ((s.dropWhile pyIsSpace).reverse.dropWhile pyIsSpace).reverse

/-- Python `str.strip()`. -/
def pyStrip (s : String) : String := String.mk (pyStripL s.data)

/-- Python `str.strip(chars)` on a character list: drop the given characters from
both ends. -/
def pyStripCharsL (chars : List Char) (s : List Char) : List Char :=
  ((s.dropWhile (chars.contains ·)).reverse.dropWhile (chars.contains ·)).reverse

/-- Python `str.strip(chars)`. -/
def pyStripChars (s : String) (chars : String) : String :=
  String.mk (pyStripCharsL chars.data s.data)

/-- Python `str.lower()` (ASCII case folding, as used by all scanned inputs). -/
def pyLower (s : String) : String := String.mk (s.data.map Char.toLower)

/-- Python `str.upper()`. -/
def pyUpper (s : String) : String := String.mk (s.data.map Char.toUpper)

/-- Python `str.startswith(p)`. -/
def pyStartsWith (s p : String) : Bool := p.data.isPrefixOf s.data

/-- Python `s[:n]` for a nonnegative literal bound (Python slices count code
points, as `List.take` does on `String.data`). -/
def pyTake (s : String) (n : Nat) : String := String.mk (s.data.take n)

/-- Python `str.split("(")[0]`: the prefix of the string before the first `(`. -/
def takeBeforeParen (s : String) : String :=
  String.mk (s.data.takeWhile (fun c => c ≠ '('))

/-- Worker for `str.replace(old, new)` (all occurrences, left to right).
The extra `Nat` argument is fuel, instantiated with the length of the
string, which keeps the recursion structural; the fuel can never run out
because each step consumes at least one character. -/
def pyReplaceGo (old new : List Char) : Nat → List Char → List Char
  | _, [] => []
  | 0, s => s
  | fuel + 1, c :: rest =>
    if old ≠ [] ∧ old.isPrefixOf (c :: rest) then
      new ++ pyReplaceGo old new fuel (List.drop (old.length - 1) rest)
    else
      c :: pyReplaceGo old new fuel rest

/-- Python `str.replace(old, new)`.  The source only ever replaces the nonempty
literals `"class "` and `"def "`; for an empty `old` this model returns the
string unchanged. -/
def pyReplace (s old new : String) : String :=
  String.mk (pyReplaceGo old.data new.data s.data.length s.data)

/-- Characters at which `str.splitlines()` breaks a line. -/
def isLineBreakChar (c : Char) : Bool :=
  c = '\n' || c = '\r' || c = '\x0b' || c = '\x0c' ||
  c = '\x1c' || c = '\x1d' || c = '\x1e' || c = '\x85' ||
  c = '\u2028' || c = '\u2029'

/-- Worker for `str.splitlines()`: `acc` is the current line, reversed.
`\r\n` counts as a single break; a trailing break does not produce an
empty final line. -/
def splitlinesGo : List Char → List Char → List (List Char)
  | [], acc => if acc.isEmpty then [] else [acc.reverse]
  | '\r' :: '\n' :: rest, acc => acc.reverse :: splitlinesGo rest []
  | c :: rest, acc =>
    if isLineBreakChar c then acc.reverse :: splitlinesGo rest []
    else splitlinesGo rest (c :: acc)

/-- Python `str.splitlines()`. -/
def pySplitlines (s : String) : List String :=
  (splitlinesGo s.data []).map String.mk

/-- Worker for `str.split()` (split on whitespace runs, no empty parts);
`acc` is the current word, reversed. -/
def splitWsGo : List Char → List Char → List (List Char)
  | [], acc => if acc.isEmpty then [] else [acc.reverse]
  | c :: rest, acc =>
    if pyIsSpace c then
      if acc.isEmpty then splitWsGo rest [] else acc.reverse :: splitWsGo rest []
    else splitWsGo rest (c :: acc)

/-- Python `str.split()` with no argument: whitespace-separated words. -/
def pySplitWs (s : String) : List String :=
  (splitWsGo s.data []).map String.mk

/-- Python `pathlib.PurePath.name`: the component after the last `/`. -/
def pathName (p : String) : String :=
  String.mk ((p.data.reverse.takeWhile (fun c => c ≠ '/')).reverse)

/-- Python `pathlib.PurePath.suffix`: the extension of the final component,
including the dot; empty when the last dot is the first character of the
name or when there is nothing after it (CPython's `0 < i < len(name) - 1`
guard, where `i` is the index of the last dot). -/
def pathSuffix (p : String) : String :=
  let name := (pathName p).data
  let revIdx := name.reverse.findIdx (fun c => c = '.')
  if revIdx < name.length then
    let i := name.length - 1 - revIdx
    if 0 < i && i < name.length - 1 then String.mk (name.drop i) else ""
  else ""

/-- Python `pathlib` `/` join, for a relative right operand as used by the source. -/
def joinPath (dir rel : String) : String := dir ++ "/" ++ rel

/-- Python slice index normalization for `l[a:b]`: a negative index counts
from the end of the list; the result is clamped to `[0, len]`. -/
def pyIndexNorm (len : Nat) (i : Int) : Nat :=
  if i < 0 then (max 0 (i + len)).toNat else (min i (len : Int)).toNat

/-- Python list slice `l[a:b]` (step 1), total for all integer bounds. -/
def pySlice {α : Type} (l : List α) (a b : Int) : List α :=
  (l.take (pyIndexNorm l.length b)).drop (pyIndexNorm l.length a)

/-! ## Fuzzy matcher (external `connectonion.tui`, modelled from the spec)

`fuzzy_match` and `highlight_match` are imported by `agent.py` from the
`connectonion.tui` library, which is not part of `src/`; they are modelled
from the specification (§4.1): a subsequence-based fuzzy match whose score
is `0` exactly when the query is not a subsequence of the candidate, is
positive otherwise (an empty query matches everything with a baseline
score), and rewards contiguity, shorter candidates, and earlier match
position.  The matcher performs no case folding; callers fold case. -/

/-- The 0-based positions of the greedy leftmost embedding of `q` into `c`
as a subsequence, or `none` when `q` is not a subsequence of `c`. -/
def subseqPositions (q : List Char) (c : List Char) (i : Nat) : Option (List Nat) :=
  match q, c with
  | [], _ => some []
  | _ :: _, [] => none
  | qc :: qs, cc :: cs =>
    if qc = cc then (subseqPositions qs cs (i + 1)).map (i :: ·)
    else subseqPositions (qc :: qs) cs (i + 1)

/-- Number of adjacent pairs in a position list that are contiguous. -/
def contigCount : List Nat → Nat
  | [] => 0
  | [_] => 0
  | a :: b :: rest => (if b = a + 1 then 1 else 0) + contigCount (b :: rest)

/-- Modelled from the spec: `connectonion.tui.fuzzy_match` (not in `src/`).
Score `0` when `query` is not a subsequence of `candidate`; otherwise a
positive score with bounded bonuses for contiguity, candidate shortness and
early match position.  Scores are dimensionless and only used for ranking
within one call (spec §3, §9). -/
def fuzzy_match (query candidate : String) : Int :=
  match subseqPositions query.data candidate.data 0 with
  | none => 0
  | some ps =>
    1 + (contigCount ps : Int)
      + ((1000 : Int) - min 1000 (candidate.data.length : Int))
      + ((1000 : Int) - min 1000 ((ps.headD 0 : Nat) : Int))

/-- Modelled from the spec: `connectonion.tui.highlight_match` (not in
`src/`) returns a rendering of `candidate` marking the characters matched
by `query`; here matched characters are wrapped in square brackets. -/
def highlight_match (candidate query : String) : String :=
  let ps := (subseqPositions query.data candidate.data 0).getD []
  String.mk ((candidate.data.enum.map
    (fun p => if ps.contains p.1 then ['[', p.2, ']'] else [p.2])).flatten)

/-! ## Structural extractor (`CodebaseScanner.extract_code_elements`) -/

/-- Worker for `extract_code_elements`: scans the (already truncated) line
list carrying the 1-based line number `i`, mirroring
`for i, line in enumerate(lines[:100], 1)`. -/
def extractGo : Nat → List String → List String × List String × List String
  | _, [] => ([], [], [])
  | i, line :: rest =>
    let prev := extractGo (i + 1) rest
    let stripped := pyStrip line
    if pyStartsWith stripped "class " then
      let className := pyStripChars (pyReplace (takeBeforeParen stripped) "class " "") ":"
      (("  - " ++ className ++ " (line " ++ toString i ++ ")") :: prev.1, prev.2.1, prev.2.2)
    else if pyStartsWith stripped "def " then
      let funcName := pyStrip (pyReplace (takeBeforeParen stripped) "def " "")
      if pyStartsWith funcName "_" then prev
      else (prev.1, ("  - " ++ funcName ++ "() (line " ++ toString i ++ ")") :: prev.2.1, prev.2.2)
    else if pyStartsWith stripped "import " || pyStartsWith stripped "from " then
      (prev.1, prev.2.1, stripped :: prev.2.2)
    else prev

/-- Embedding of `CodebaseScanner.extract_code_elements`: classes, functions and imports
found in the first 100 lines. -/
def extract_code_elements (lines : List String) :
    List String × List String × List String :=
  extractGo 1 (lines.take 100)

/-! ## Relevance ranker (`CodebaseScanner` scoring helpers)

A scanned file is its path relative to the target directory together with
its decodable content (`none` = unreadable as text); `relative_to` is
modelled by storing the relative path directly. -/

/-- A code file reachable from the scan root. -/
structure PyFile where
  relPath : String
  decoded : Option String
deriving DecidableEq

/-- Python `Path.read_text(encoding="utf-8", errors="ignore")` on a regular file:
never raises on undecodable bytes; an unreadable-as-text file yields the
empty string (spec §7, "content treated as empty"). -/
def read_text_ignore (decoded : Option String) : String := decoded.getD ""

/-- The strict total order used to model CPython's stable sort with
`key=lambda x: x[0]` and `reverse=True` on index-tagged elements:
score descending, ties by original position ascending.  CPython documents
that `reverse=True` keeps the sort stable (equal keys retain their
original order). -/
def keyRelIdx {α : Type} (x y : Nat × Int × α) : Prop :=
  y.2.1 < x.2.1 ∨ (x.2.1 = y.2.1 ∧ x.1 ≤ y.1)

instance {α : Type} : DecidableRel (@keyRelIdx α) := fun x y =>
  inferInstanceAs (Decidable (y.2.1 < x.2.1 ∨ (x.2.1 = y.2.1 ∧ x.1 ≤ y.1)))

instance {α : Type} : IsTotal (Nat × Int × α) keyRelIdx where
  total x y := by
    rcases lt_trichotomy x.2.1 y.2.1 with h | h | h
    · exact Or.inr (Or.inl h)
    · rcases Nat.le_total x.1 y.1 with h' | h'
      · exact Or.inl (Or.inr ⟨h, h'⟩)
      · exact Or.inr (Or.inr ⟨h.symm, h'⟩)
    · exact Or.inl (Or.inl h)

instance {α : Type} : IsTrans (Nat × Int × α) keyRelIdx where
  trans _ _ _ h1 h2 := by
    unfold keyRelIdx at *
    omega

/-- The sort on index-tagged elements: the element of original position `i`
and score `s` is tagged as `(i, s, payload)`. -/
def pySortIndexed {α : Type} (l : List (Int × α)) : List (Nat × Int × α) :=
  (l.enum).insertionSort keyRelIdx

/-- CPython `list.sort(reverse=True, key=lambda x: x[0])` (equivalently
`sorted(..., reverse=True, key=...)`): stable descending sort by the first
component. -/
def pySortByScoreDesc {α : Type} (l : List (Int × α)) : List (Int × α) :=
  (pySortIndexed l).map (·.2)

/-- The per-file total of `CodebaseScanner.score_files_for_feature`'s inner
loop: for each keyword, add the path fuzzy score weighted by 3, then the
fuzzy score of the first 1000 characters of the content weighted by 2. -/
def fileFeatureScore (f : PyFile) (keywords : List String) : Int :=
  keywords.foldl
    (fun total keyword =>
      let path_score := fuzzy_match keyword (pyLower f.relPath)
      let total := total + path_score * 3
      let content := pyLower (pyTake (read_text_ignore f.decoded) 1000)
      let content_score := fuzzy_match keyword content
      total + content_score * 2)
    0

/-- Embedding of `CodebaseScanner.score_files_for_feature`: scored `(total, rel_path)`
pairs in discovery order, keeping only files with positive total. -/
def score_files_for_feature (code_files : List PyFile) (keywords : List String) :
    List (Int × String) :=
  code_files.filterMap fun f =>
    let total_score := fileFeatureScore f keywords
    if 0 < total_score then some (total_score, f.relPath) else none

/-- The recommended list inside `CodebaseScanner.recommend_files`:
lower-cased whitespace-split keywords, feature scoring, then
`sorted(..., reverse=True, key=lambda x: x[0])[:5]`.  (The surrounding
directory resolution and report formatting are glue around this core.) -/
def recommended_files (code_files : List PyFile) (feature_description : String) :
    List (Int × String) :=
  let keywords := pySplitWs (pyLower feature_description)
  (pySortByScoreDesc (score_files_for_feature code_files keywords)).take 5

/-- The unsorted accumulator of `CodebaseScanner.score_files_fuzzy`:
files whose fuzzy score against the query is positive, with highlighting,
in discovery order. -/
def scoredFilesRaw (query : String) (file_paths : List String) :
    List (Int × String × String) :=
  file_paths.filterMap fun path =>
    let score := fuzzy_match (pyLower query) (pyLower path)
    if 0 < score then some (score, path, highlight_match path query) else none

/-- Embedding of `CodebaseScanner.score_files_fuzzy`: positive-scoring files, stably
sorted by score descending. -/
def score_files_fuzzy (query : String) (file_paths : List String) :
    List (Int × String × String) :=
  pySortByScoreDesc (scoredFilesRaw query file_paths)

/-! ### Sorting lemmas shared by the ranking claims -/

theorem pySortIndexed_pairwise {α : Type} (l : List (Int × α)) :
    (pySortIndexed l).Pairwise keyRelIdx :=
  List.sorted_insertionSort keyRelIdx l.enum

theorem pySortByScoreDesc_perm {α : Type} (l : List (Int × α)) :
    (pySortByScoreDesc l).Perm l := by
  have h := (List.perm_insertionSort (@keyRelIdx α) l.enum).map Prod.snd
  simpa [pySortByScoreDesc, pySortIndexed, List.enum_map_snd] using h

theorem pySortByScoreDesc_pairwise {α : Type} (l : List (Int × α)) :
    (pySortByScoreDesc l).Pairwise (fun a b => b.1 ≤ a.1) := by
  have h := List.Pairwise.map (S := fun a b : Int × α => b.1 ≤ a.1) (·.2)
    (fun a b hab => by
      rcases hab with h' | ⟨h', _⟩
      · exact le_of_lt h'
      · exact le_of_eq h'.symm)
    (pySortIndexed_pairwise l)
  simpa [pySortByScoreDesc] using h

/-! ## Route pattern extractor (`APIDocumentation`, `main_3.py`)

The five compiled regular expressions of `APIDocumentation.route_patterns`
are embedded as deterministic matchers.  Each is anchored at a position and
wrapped in a left-to-right search (`re.search` semantics: leftmost match
position wins).  Determinism is justified pattern by pattern: no literal
alternative of `(app|api|router)`, `(app|router)` or
`(get|post|put|patch|delete|options|head)` is a prefix of another, so at
most one branch can consume a given position; `\s*` and `[^"']+` are
followed by characters disjoint from their own character classes, so
maximal munch agrees with greedy backtracking; the only nontrivial
backtracking, the greedy `.*` of rule 2, is modelled by preferring the
rightmost viable continuation. -/

/-- A filesystem node under a scanned root: a regular file with its
decodable text (`none` = unreadable as text), or a directory. -/
inductive Node where
  | file (decoded : Option String)
  | dir
deriving DecidableEq

/-- One entry of a recursive directory listing (`Path.rglob("*")`), with
its path relative to the root. -/
structure Dirent where
  path : String
  node : Node
deriving DecidableEq

/-- Regex `re` word character, for `\b` (ASCII part). -/
def isWordChar (c : Char) : Bool := c.isAlphanum || c = '_'

/-- Regex `["']`: the quote characters opening a captured route string. -/
def isQuoteChar (c : Char) : Bool := c = '"' || c = '\x27'

/-- Regex `\b` between an optional previous character and the rest of the line:
a word character on exactly one side. -/
def atWordBoundary (prev : Option Char) (s : List Char) : Bool :=
  (match prev with | some p => isWordChar p | none => false)
    != (match s with | c :: _ => isWordChar c | [] => false)

/-- Match a literal case-insensitively (`re.IGNORECASE`, ASCII), returning
the rest of the input. -/
def litCIRest : List Char → List Char → Option (List Char)
  | [], s => some s
  | _ :: _, [] => none
  | p :: ps, c :: cs => if c.toLower = p.toLower then litCIRest ps cs else none

/-- Match a literal case-insensitively, returning the consumed input slice
(the capture keeps the input's own letter case) and the rest. -/
def tryLitCI (lit : List Char) (s : List Char) : Option (List Char × List Char) :=
  (litCIRest lit s).map (fun rest => (s.take lit.length, rest))

/-- Regex alternation over literals, first alternative first. -/
def tryAltCI : List (List Char) → List Char → Option (List Char × List Char)
  | [], _ => none
  | a :: rest, s => tryLitCI a s <|> tryAltCI rest s

/-- A single expected character. -/
def expectChar (c : Char) : List Char → Option (List Char)
  | c' :: rest => if c' = c then some rest else none
  | [] => none

/-- Regex `["']([^"']+)`: an opening quote, then the greedy nonempty run of
non-quote characters (the captured route), and the rest. -/
def takeQuotedRun : List Char → Option (List Char × List Char)
  | [] => none
  | q :: rest =>
    if isQuoteChar q then
      let run := rest.takeWhile (fun c => !isQuoteChar c)
      if run.isEmpty then none else some (run, rest.drop run.length)
    else none

/-- The method alternation `(get|post|put|patch|delete|options|head)`. -/
def httpMethods : List (List Char) :=
  ["get".data, "post".data, "put".data, "patch".data, "delete".data,
   "options".data, "head".data]

/-- Rule 1 anchored at a position:
`@(app|api|router)\.(get|...)\(\s*["']([^"']+)`; yields the captured
method text and route. -/
def p1At (s : List Char) : Option (List Char × List Char) := do
  let r1 ← expectChar '@' s
  let (_, r2) ← tryAltCI ["app".data, "api".data, "router".data] r1
  let r3 ← expectChar '.' r2
  let (m, r4) ← tryAltCI httpMethods r3
  let r5 ← expectChar '(' r4
  let (route, _) ← takeQuotedRun (r5.dropWhile pyIsSpace)
  return (m, route)

/-- The tail of rule 2 after the `.*`: `route\(\s*["']([^"']+)`. -/
def p2Tail (s : List Char) : Option (List Char) := do
  let (_, r1) ← tryLitCI "route".data s
  let r2 ← expectChar '(' r1
  let (route, _) ← takeQuotedRun (r2.dropWhile pyIsSpace)
  return route

/-- Greedy `.*` followed by `f`: the rightmost position at which `f`
succeeds, among positions reachable by consuming non-newline characters
(regex `.` does not match a newline). -/
def lastSomeNoNewline {α : Type} (f : List Char → Option α) : List Char → Option α
  | [] => f []
  | c :: rest =>
    if c = '\n' then f (c :: rest)
    else lastSomeNoNewline f rest <|> f (c :: rest)

/-- Rule 2 anchored at a position: `@.*route\(\s*["']([^"']+)`. -/
def p2At (s : List Char) : Option (List Char) :=
  match s with
  | '@' :: rest => lastSomeNoNewline p2Tail rest
  | _ => none

/-- Rule 3 anchored at a position:
`\b(app|router)\.(get|...)\(\s*["']([^"']+)`. -/
def p3At (prev : Option Char) (s : List Char) : Option (List Char × List Char) := do
  guard (atWordBoundary prev s = true)
  let (_, r1) ← tryAltCI ["app".data, "router".data] s
  let r2 ← expectChar '.' r1
  let (m, r3) ← tryAltCI httpMethods r2
  let r4 ← expectChar '(' r3
  let (route, _) ← takeQuotedRun (r4.dropWhile pyIsSpace)
  return (m, route)

/-- Rule 4 anchored at a position: `\bpath\(\s*["']([^"']+)`. -/
def p4At (prev : Option Char) (s : List Char) : Option (List Char) := do
  guard (atWordBoundary prev s = true)
  let (_, r1) ← tryLitCI "path".data s
  let r2 ← expectChar '(' r1
  let (route, _) ← takeQuotedRun (r2.dropWhile pyIsSpace)
  return route

/-- Rule 5 anchored at a position: `\bre_path\(\s*["']([^"']+)`. -/
def p5At (prev : Option Char) (s : List Char) : Option (List Char) := do
  guard (atWordBoundary prev s = true)
  let (_, r1) ← tryLitCI "re_path".data s
  let r2 ← expectChar '(' r1
  let (route, _) ← takeQuotedRun (r2.dropWhile pyIsSpace)
  return route

/-- Python `re.search`: try the anchored matcher at each position left to right,
tracking the previous character for `\b`. -/
def searchFrom {α : Type} (f : Option Char → List Char → Option α) :
    Option Char → List Char → Option α
  | prev, [] => f prev []
  | prev, c :: rest => f prev (c :: rest) <|> searchFrom f (some c) rest

/-- The capture groups of one route-pattern match: rules 1 and 3 capture
three groups (of which the method and the route are used); rules 2, 4 and 5
capture only the route. -/
inductive PatMatch where
  | withMethod (method : List Char) (route : List Char)
  | routeOnly (route : List Char)
deriving DecidableEq

/-- The ordered rule list `APIDocumentation.route_patterns`, each compiled
pattern as a whole-line searcher. -/
def route_patterns : List (String → Option PatMatch) :=
  [ fun line => (searchFrom (fun _ s => p1At s) none line.data).map
      (fun m => PatMatch.withMethod m.1 m.2)
  , fun line => (searchFrom (fun _ s => p2At s) none line.data).map PatMatch.routeOnly
  , fun line => (searchFrom p3At none line.data).map
      (fun m => PatMatch.withMethod m.1 m.2)
  , fun line => (searchFrom p4At none line.data).map PatMatch.routeOnly
  , fun line => (searchFrom p5At none line.data).map PatMatch.routeOnly ]

/-- The method/route extraction in the body of the scan loop: three
captured groups give `method = match.group(2).upper()` and
`route = match.group(3)`; otherwise `method` keeps its default `"GET"` and
`route = match.group(match.lastindex or 1)`. -/
def methodRouteOf : PatMatch → String × String
  | PatMatch.withMethod m r => (pyUpper (String.mk m), String.mk r)
  | PatMatch.routeOnly r => ("GET", String.mk r)

/-- The per-line part of `APIDocumentation.scan_api_endpoints`: the rules
are tried in priority order and the `break` after a recorded match means
later rules are never tried for that line. -/
def scanLine (line : String) : Option (String × String) :=
  (route_patterns.findSome? (fun p => p line)).map methodRouteOf

/-- One detected route registration, as the dict appended by
`scan_api_endpoints`: method, route path, file identifier, and the matched
line's text stripped and truncated to 200 characters. -/
structure RouteEntry where
  method : String
  path : String
  file : String
  line : String
deriving DecidableEq

/-- The entries a single line contributes (at most one). -/
def scanLineEntries (filePath : String) (line : String) : List RouteEntry :=
  match scanLine line with
  | some mr => [⟨mr.1, mr.2, filePath, pyTake (pyStrip line) 200⟩]
  | none => []

/-- The entries a single directory entry contributes: directories and
files whose lower-cased suffix is not in the allow-list are skipped. -/
def scanFileEntries (d : Dirent) : List RouteEntry :=
  match d.node with
  | Node.dir => []
  | Node.file decoded =>
    if [".py", ".js", ".ts", ".tsx", ".jsx"].contains (pyLower (pathSuffix d.path)) then
      (pySplitlines (read_text_ignore decoded)).flatMap (scanLineEntries d.path)
    else []

/-- Embedding of `APIDocumentation.scan_api_endpoints`: empty when the repo root does
not exist, otherwise the per-file entries in traversal order. -/
def scan_api_endpoints (repoRootExists : Bool) (entries : List Dirent) :
    List RouteEntry :=
  if repoRootExists then entries.flatMap scanFileEntries else []

/-! ## File enumerator and file-level operations (`agent.py`)

The filesystem is modelled as an association list from absolute path
strings to nodes; `Path.expanduser().resolve()` is modelled as the
identity on the already-absolute paths used here. -/

/-- A filesystem snapshot: path → node. -/
abbrev Fs := List (String × Node)

/-- Path lookup. -/
def fsLookup (fs : Fs) (p : String) : Option Node := List.lookup p fs

/-- Python `path.exists() and path.is_dir()`. -/
def fsIsDir (fs : Fs) (p : String) : Bool :=
  match fsLookup fs p with
  | some Node.dir => true
  | _ => false

/-- Returns `true` exactly for regular-file nodes (`Path.is_file()`). -/
def nodeIsFile : Node → Bool
  | Node.file _ => true
  | Node.dir => false

/-- Embedding of `CodebaseScanner.CODE_EXTENSIONS`. -/
def CODE_EXTENSIONS : List String :=
  [".py", ".js", ".ts", ".tsx", ".jsx", ".rs", ".go", ".java", ".cpp", ".c", ".h", ".hpp"]

/-- The scan root handed to `get_code_files`: its existence, whether it is
a directory, and its recursive listing (`rglob("*")`, traversal order). -/
structure ScanRoot where
  rootExists : Bool
  isDir : Bool
  entries : List Dirent

/-- Embedding of `CodebaseScanner.get_code_files`: empty for a missing or non-directory
root; otherwise the regular files whose suffix is in `CODE_EXTENSIONS`. -/
def get_code_files (root : ScanRoot) : List Dirent :=
  if !root.rootExists || !root.isDir then []
  else root.entries.filter
    (fun f => nodeIsFile f.node && CODE_EXTENSIONS.contains (pathSuffix f.path))

/-- Embedding of `CodebaseScanner.resolve_target_dir`: a provided `folder_path` is used
directly; else a provided `repo_name` is looked up under the codebase
root; else the codebase root itself; `none` when the chosen path is not an
existing directory. -/
def resolve_target_dir (fs : Fs) (codebaseRoot : String)
    (repoName folderPath : Option String) : Option String :=
  match folderPath with
  | some p => if fsIsDir fs p then some p else none
  | none =>
    match repoName with
    | some r =>
      let target := joinPath codebaseRoot r
      if fsIsDir fs target then some target else none
    | none => if fsIsDir fs codebaseRoot then some codebaseRoot else none

/-- Python `folder_path if folder_path else repo_name or "directory"`. -/
def identifierOf (repoName folderPath : Option String) : String :=
  folderPath.getD (repoName.getD "directory")

/-- Embedding of `CodebaseScanner.format_file_explanation`. -/
def format_file_explanation (filePath fullPath : String) (lines : List String)
    (classes functions imports : List String) : String :=
  let result := [filePath, String.mk (List.replicate 60 '='),
    "Lines: " ++ toString lines.length ++ " | Extension: " ++ pathSuffix fullPath, ""]
  let result := result ++ (if imports.isEmpty then [] else
    ["Imports:"] ++ (imports.take 8).map (fun imp => "  - " ++ imp) ++ [""])
  let result := result ++ (if classes.isEmpty then [] else
    ["Classes:"] ++ classes.take 5 ++ [""])
  let result := result ++ (if functions.isEmpty then [] else
    ["Functions:"] ++ functions.take 8 ++ [""])
  let preview := String.intercalate "\n" (lines.take 25)
  let result := result ++ ["Preview (first 25 lines):",
    String.mk (List.replicate 60 '-'), preview]
  let result := result ++ (if 25 < lines.length then
    ["\n... (" ++ toString (lines.length - 25) ++ " more lines)"] else [])
  String.intercalate "\n" result

/-- Embedding of `CodebaseScanner.explain_file`: resolution failure or a missing path is
reported as a message; a directory is reported with an explicit
"is not a file" message before any read is attempted. -/
def explain_file (fs : Fs) (codebaseRoot : String)
    (repoName folderPath : Option String) (filePath : String) : String :=
  match resolve_target_dir fs codebaseRoot repoName folderPath with
  | none =>
    "Folder/repository \x27" ++ identifierOf repoName folderPath ++ "\x27 not found."
  | some targetDir =>
    let fullPath := joinPath targetDir filePath
    match fsLookup fs fullPath with
    | none =>
      "File " ++ filePath ++ " not found in \x27"
        ++ folderPath.getD (repoName.getD targetDir) ++ "\x27."
    | some Node.dir => filePath ++ " is not a file."
    | some (Node.file decoded) =>
      let content := read_text_ignore decoded
      let lines := pySplitlines content
      let (classes, functions, imports) := extract_code_elements lines
      format_file_explanation filePath fullPath lines classes functions imports

/-- The exception a file read can raise: `Path.read_text` on a directory
raises `IsADirectoryError`. -/
inductive PyErr where
  | isADirectoryError
deriving DecidableEq

/-- The line window selected by `get_file_content`:
`start_idx = max(0, start_line - 1)`,
`end_idx = min(len(lines), start_idx + num_lines)`,
`lines[start_idx:end_idx]` with Python slice semantics. -/
def select_window (lines : List String) (startLine numLines : Int) : List String :=
  let startIdx : Int := max 0 (startLine - 1)
  let endIdx : Int := min (lines.length : Int) (startIdx + numLines)
  pySlice lines startIdx endIdx

/-- Python `f"{i:4d}"`: decimal rendering right-aligned to width 4. -/
def padLeft4 (s : String) : String :=
  if s.data.length < 4 then String.mk (List.replicate (4 - s.data.length) ' ') ++ s
  else s

/-- Embedding of `CodebaseScanner.get_file_content`: checks only that the full path
exists; reading a directory therefore raises (`Except.error`), unlike
`explain_file`, which guards with `is_file()` first. -/
def get_file_content (fs : Fs) (codebaseRoot : String)
    (repoName folderPath : Option String) (filePath : String)
    (startLine numLines : Int) : Except PyErr String :=
  match resolve_target_dir fs codebaseRoot repoName folderPath with
  | none => Except.ok
      ("Folder/repository \x27" ++ identifierOf repoName folderPath ++ "\x27 not found.")
  | some targetDir =>
    let fullPath := joinPath targetDir filePath
    match fsLookup fs fullPath with
    | none => Except.ok
        ("File " ++ filePath ++ " not found in \x27" ++ identifierOf repoName folderPath ++ "\x27.")
    | some Node.dir => Except.error PyErr.isADirectoryError
    | some (Node.file decoded) =>
      let content := read_text_ignore decoded
      let lines := pySplitlines content
      let startIdx : Int := max 0 (startLine - 1)
      let endIdx : Int := min (lines.length : Int) (startIdx + numLines)
      let selected := select_window lines startLine numLines
      let header := filePath ++ " (lines " ++ toString startLine ++ "-"
        ++ toString (startIdx + selected.length) ++ "):\n"
        ++ String.mk (List.replicate 60 '=') ++ "\n"
      let body := String.join (selected.enum.map
        (fun p => padLeft4 (toString (startLine + p.1)) ++ " | " ++ p.2 ++ "\n"))
      let footer := if endIdx < (lines.length : Int) then
        "\n... (" ++ toString ((lines.length : Int) - endIdx) ++ " more lines)" else ""
      Except.ok (header ++ body ++ footer)

/-! ## Helper lemmas -/

theorem findSome?_eq_of_first {α β : Type} (f : α → Option β) :
    ∀ (l : List α) (i : Nat) (hi : i < l.length) (b : β),
      f (l.get ⟨i, hi⟩) = some b →
      (∀ j (hj : j < i), f (l.get ⟨j, Nat.lt_trans hj hi⟩) = none) →
      l.findSome? f = some b
  | a :: _, 0, _, b, hb, _ => by
    have hb' : f a = some b := hb
    simp [List.findSome?_cons, hb']
  | a :: t, i + 1, hi, b, hb, hnone => by
    have h0 : f a = none := hnone 0 (Nat.succ_pos i)
    have ht := findSome?_eq_of_first f t i (Nat.lt_of_succ_lt_succ hi) b hb
      (fun j hj => hnone (j + 1) (Nat.succ_lt_succ hj))
    simp [List.findSome?_cons, h0, ht]

theorem foldl_add_weights (p c : String → Int) :
    ∀ (l : List String) (init : Int),
      l.foldl (fun t k => t + p k + c k) init = init + (l.map (fun k => p k + c k)).sum
  | [], init => by simp
  | k :: l, init => by
    simp only [List.foldl_cons, List.map_cons, List.sum_cons,
      foldl_add_weights p c l]
    ring

theorem extractGo_line_numbers :
    ∀ (ls : List String) (i : Nat),
      (∀ s ∈ (extractGo i ls).1, ∃ name j, i ≤ j ∧ j < i + ls.length ∧
          s = "  - " ++ name ++ " (line " ++ toString j ++ ")")
      ∧ (∀ s ∈ (extractGo i ls).2.1, ∃ name j, i ≤ j ∧ j < i + ls.length ∧
          s = "  - " ++ name ++ "() (line " ++ toString j ++ ")")
  | [], i => by simp [extractGo]
  | line :: rest, i => by
    obtain ⟨ihc, ihf⟩ := extractGo_line_numbers rest (i + 1)
    constructor
    · intro s hs
      simp only [extractGo] at hs
      split_ifs at hs with h1 h2 h3 h4
      · rcases List.mem_cons.mp hs with hs | hs
        · refine ⟨_, i, le_refl i, ?_, hs⟩
          simp only [List.length_cons]
          omega
        · obtain ⟨name, j, ha, hb, hc⟩ := ihc s hs
          refine ⟨name, j, by omega, ?_, hc⟩
          simp only [List.length_cons] at *
          omega
      all_goals
        obtain ⟨name, j, ha, hb, hc⟩ := ihc s hs
      all_goals
        refine ⟨name, j, by omega, ?_, hc⟩
      all_goals
        simp only [List.length_cons] at *
      all_goals
        omega
    · intro s hs
      simp only [extractGo] at hs
      split_ifs at hs with h1 h2 h3 h4
      · obtain ⟨name, j, ha, hb, hc⟩ := ihf s hs
        refine ⟨name, j, by omega, ?_, hc⟩
        simp only [List.length_cons] at *
        omega
      · obtain ⟨name, j, ha, hb, hc⟩ := ihf s hs
        refine ⟨name, j, by omega, ?_, hc⟩
        simp only [List.length_cons] at *
        omega
      · rcases List.mem_cons.mp hs with hs | hs
        · refine ⟨_, i, le_refl i, ?_, hs⟩
          simp only [List.length_cons]
          omega
        · obtain ⟨name, j, ha, hb, hc⟩ := ihf s hs
          refine ⟨name, j, by omega, ?_, hc⟩
          simp only [List.length_cons] at *
          omega
      all_goals
        obtain ⟨name, j, ha, hb, hc⟩ := ihf s hs
      all_goals
        refine ⟨name, j, by omega, ?_, hc⟩
      all_goals
        simp only [List.length_cons] at *
      all_goals
        omega

/-! ## Claims -/

/-- C4: for every sequence of input lines, `extract_code_elements`
inspects only the first 100 lines — its result on any line list equals its
result on the 100-line truncation, so a class, function, or import
appearing only at line 101 or later never appears in the returned summary
— and every line number reported for a class or function is between 1 and
100. -/
theorem c4_extract_first_100_lines (lines : List String) :
    extract_code_elements lines = extract_code_elements (lines.take 100)
    ∧ (∀ s ∈ (extract_code_elements lines).1, ∃ name j, 1 ≤ j ∧ j ≤ 100 ∧
        s = "  - " ++ name ++ " (line " ++ toString j ++ ")")
    ∧ (∀ s ∈ (extract_code_elements lines).2.1, ∃ name j, 1 ≤ j ∧ j ≤ 100 ∧
        s = "  - " ++ name ++ "() (line " ++ toString j ++ ")") := by
  have hbound := extractGo_line_numbers (lines.take 100) 1
  have hlen : (lines.take 100).length ≤ 100 := by
    simp
  refine ⟨?_, ?_, ?_⟩
  · simp [extract_code_elements, List.take_take]
  · intro s hs
    rcases hbound.1 s hs with ⟨name, j, hij, hlt, hek⟩
    exact ⟨name, j, hij, by omega, hek⟩
  · intro s hs
    rcases hbound.2 s hs with ⟨name, j, hij, hlt, hek⟩
    exact ⟨name, j, hij, by omega, hek⟩

theorem c4_extract_first_100_lines_witness :
    extract_code_elements ["class A:"] = extract_code_elements (["class A:"].take 100)
    ∧ (∃ name j, 1 ≤ j ∧ j ≤ 100 ∧
        ("  - A (line 1)" : String) = "  - " ++ name ++ " (line " ++ toString j ++ ")") :=
  ⟨(c4_extract_first_100_lines ["class A:"]).1,
   (c4_extract_first_100_lines ["class A:"]).2.1 "  - A (line 1)" (by decide)⟩

/-- C6: on the five-line `UserAuth` scenario, `extract_code_elements`
reports exactly the class `UserAuth` at line 1 and the function `login` at
line 2; `_hash` is excluded for its leading underscore without stopping the
scan of later lines. -/
theorem c6_scenario_userauth :
    extract_code_elements
      ["class UserAuth:", "    def login(self):", "        pass",
       "    def _hash(self, pw):", "        pass"]
      = (["  - UserAuth (line 1)"], ["  - login() (line 2)"], []) := by
  decide

theorem fileFeatureScore_eq_sum (f : PyFile) (keywords : List String) :
    fileFeatureScore f keywords = (keywords.map (fun kw =>
      fuzzy_match kw (pyLower f.relPath) * 3 +
      fuzzy_match kw (pyLower (pyTake (read_text_ignore f.decoded) 1000)) * 2)).sum := by
  have h := foldl_add_weights (fun kw => fuzzy_match kw (pyLower f.relPath) * 3)
    (fun kw => fuzzy_match kw (pyLower (pyTake (read_text_ignore f.decoded) 1000)) * 2)
    keywords 0
  simpa [fileFeatureScore] using h

theorem mem_score_files_for_feature {e : Int × String} {files : List PyFile}
    {kws : List String} (he : e ∈ score_files_for_feature files kws) : 0 < e.1 := by
  simp only [score_files_for_feature] at he
  rcases List.mem_filterMap.mp he with ⟨f, _, hf⟩
  by_cases h : 0 < fileFeatureScore f kws
  · rw [if_pos h] at hf
    cases hf
    exact h
  · rw [if_neg h] at hf
    cases hf

theorem mem_scoredFilesRaw {e : Int × String × String} {query : String}
    {paths : List String} (he : e ∈ scoredFilesRaw query paths) : 0 < e.1 := by
  simp only [scoredFilesRaw] at he
  rcases List.mem_filterMap.mp he with ⟨p, _, hp⟩
  by_cases h : 0 < fuzzy_match (pyLower query) (pyLower p)
  · rw [if_pos h] at hp
    cases hp
    exact h
  · rw [if_neg h] at hp
    cases hp

/-- C1: for every feature description and candidate file list,
`recommend_files` / `score_files_for_feature` give each file the total
score `Σ over the lower-cased whitespace-split keywords of
(fuzzy score against the relative path) * 3 + (fuzzy score against the
first 1000 characters of the content) * 2`; files with total score 0 (or
below) are excluded, and at most the top 5 files by stably-descending
total score are returned. -/
theorem c1_feature_scoring_weighted_top5 (code_files : List PyFile)
    (feature_description : String) :
    (∀ f : PyFile, fileFeatureScore f (pySplitWs (pyLower feature_description)) =
        ((pySplitWs (pyLower feature_description)).map (fun kw =>
          fuzzy_match kw (pyLower f.relPath) * 3 +
          fuzzy_match kw (pyLower (pyTake (read_text_ignore f.decoded) 1000)) * 2)).sum)
    ∧ score_files_for_feature code_files (pySplitWs (pyLower feature_description)) =
        code_files.filterMap (fun f =>
          if 0 < fileFeatureScore f (pySplitWs (pyLower feature_description))
          then some (fileFeatureScore f (pySplitWs (pyLower feature_description)), f.relPath)
          else none)
    ∧ recommended_files code_files feature_description =
        (pySortByScoreDesc (score_files_for_feature code_files
          (pySplitWs (pyLower feature_description)))).take 5
    ∧ (recommended_files code_files feature_description).length ≤ 5
    ∧ (∀ e ∈ recommended_files code_files feature_description, 0 < e.1 ∧
        e ∈ score_files_for_feature code_files (pySplitWs (pyLower feature_description)))
    ∧ (recommended_files code_files feature_description).Pairwise
        (fun a b => b.1 ≤ a.1) := by
  refine ⟨fun f => fileFeatureScore_eq_sum f _, rfl, rfl, ?_, ?_, ?_⟩
  · exact List.length_take_le 5 _
  · intro e he
    have he' : e ∈ pySortByScoreDesc (score_files_for_feature code_files
        (pySplitWs (pyLower feature_description))) :=
      List.take_subset 5 _ he
    have hmem : e ∈ score_files_for_feature code_files
        (pySplitWs (pyLower feature_description)) :=
      (pySortByScoreDesc_perm _).mem_iff.mp he'
    exact ⟨mem_score_files_for_feature hmem, hmem⟩
  · exact (pySortByScoreDesc_pairwise _).sublist (List.take_sublist 5 _)

theorem c1_feature_scoring_weighted_top5_witness :
    ((9929 : Int), "auth/login.py").1 > 0
    ∧ ((9929 : Int), "auth/login.py")
        ∈ score_files_for_feature [⟨"auth/login.py", some "def login(): pass"⟩]
            (pySplitWs (pyLower "user login"))
    ∧ fileFeatureScore ⟨"auth/login.py", some "def login(): pass"⟩
        (pySplitWs (pyLower "user login")) =
      ((pySplitWs (pyLower "user login")).map (fun kw =>
        fuzzy_match kw (pyLower "auth/login.py") * 3 +
        fuzzy_match kw (pyLower (pyTake (read_text_ignore (some "def login(): pass")) 1000)) * 2)).sum := by
  have h5 := (c1_feature_scoring_weighted_top5
      [⟨"auth/login.py", some "def login(): pass"⟩] "user login").2.2.2.2.1
      ((9929 : Int), "auth/login.py") (by decide)
  exact ⟨h5.1, h5.2,
    (c1_feature_scoring_weighted_top5
      [⟨"auth/login.py", some "def login(): pass"⟩] "user login").1
      ⟨"auth/login.py", some "def login(): pass"⟩⟩

/-- C5: every result list of path search (`score_files_fuzzy`) and feature
recommendation (`recommend_files`) is sorted by score descending, contains
no entry with score ≤ 0, and — being produced by CPython's stable sort on
the discovery-ordered list — breaks ties between equal scores by original
discovery order: the index-tagged sorted lists are ordered by
`keyRelIdx` (score descending, then original position ascending). -/
theorem c5_results_sorted_positive_stable (query : String) (file_paths : List String)
    (code_files : List PyFile) (feature_description : String) :
    score_files_fuzzy query file_paths
      = (pySortIndexed (scoredFilesRaw query file_paths)).map (·.2)
    ∧ (score_files_fuzzy query file_paths).Pairwise (fun a b => b.1 ≤ a.1)
    ∧ (∀ e ∈ score_files_fuzzy query file_paths, 0 < e.1)
    ∧ (pySortIndexed (scoredFilesRaw query file_paths)).Pairwise keyRelIdx
    ∧ recommended_files code_files feature_description =
        ((pySortIndexed (score_files_for_feature code_files
          (pySplitWs (pyLower feature_description)))).map (·.2)).take 5
    ∧ (recommended_files code_files feature_description).Pairwise (fun a b => b.1 ≤ a.1)
    ∧ (∀ e ∈ recommended_files code_files feature_description, 0 < e.1)
    ∧ (pySortIndexed (score_files_for_feature code_files
        (pySplitWs (pyLower feature_description)))).Pairwise keyRelIdx := by
  refine ⟨rfl, pySortByScoreDesc_pairwise _, ?_, pySortIndexed_pairwise _, rfl,
    (pySortByScoreDesc_pairwise _).sublist (List.take_sublist 5 _), ?_,
    pySortIndexed_pairwise _⟩
  · intro e he
    exact mem_scoredFilesRaw ((pySortByScoreDesc_perm _).mem_iff.mp he)
  · intro e he
    have he' := List.take_subset 5 _ he
    exact mem_score_files_for_feature ((pySortByScoreDesc_perm _).mem_iff.mp he')

theorem c5_results_sorted_positive_stable_witness :
    (0 : Int) < ((1991 : Int), "auth/login.py", "[a][u][t][h]/login.py").1
    ∧ (score_files_fuzzy "auth" ["auth/login.py", "utils/math.py"]).Pairwise
        (fun a b => b.1 ≤ a.1) := by
  refine ⟨?_, (c5_results_sorted_positive_stable "auth"
    ["auth/login.py", "utils/math.py"] [] "").2.1⟩
  exact (c5_results_sorted_positive_stable "auth" ["auth/login.py", "utils/math.py"]
    [] "").2.2.1 ((1991 : Int), "auth/login.py", "[a][u][t][h]/login.py") (by decide)

/-- C3: per scanned line at most one `RouteEntry` is recorded; the rules
are tried in the fixed priority order and the first match wins (if rule `i`
matches and all earlier rules do not, the line's result comes from rule
`i`, and later rules are never consulted); the rules that capture no HTTP
method (the 2nd, 4th and 5th) always yield method `"GET"`; and the line
`@app.get("/users/{id}")` yields exactly one `RouteEntry` with method
`"GET"` and path `"/users/{id}"`. -/
theorem c3_first_rule_wins_default_get :
    (∀ (line : String) (i : Nat) (hi : i < route_patterns.length) (m : PatMatch),
        (route_patterns.get ⟨i, hi⟩) line = some m →
        (∀ j (hj : j < i), (route_patterns.get ⟨j, Nat.lt_trans hj hi⟩) line = none) →
        scanLine line = some (methodRouteOf m))
    ∧ (∀ (filePath line : String), (scanLineEntries filePath line).length ≤ 1)
    ∧ (∀ (i : Nat) (hi : i < route_patterns.length), i = 1 ∨ i = 3 ∨ i = 4 →
        ∀ (line : String) (m : PatMatch), (route_patterns.get ⟨i, hi⟩) line = some m →
        (methodRouteOf m).1 = "GET")
    ∧ scanLine "@app.get(\"/users/{id}\")" = some ("GET", "/users/{id}")
    ∧ scanLineEntries "users.py" "@app.get(\"/users/{id}\")"
        = [⟨"GET", "/users/{id}", "users.py", "@app.get(\"/users/{id}\")"⟩] := by
  refine ⟨?_, ?_, ?_, by decide, by decide⟩
  · intro line i hi m hm hnone
    have h := findSome?_eq_of_first (fun p => p line) route_patterns i hi m hm hnone
    simp [scanLine, h]
  · intro filePath line
    unfold scanLineEntries
    cases scanLine line <;> simp
  · intro i hi hcases line m hm
    rcases hcases with h | h | h <;> subst h <;>
      simp only [route_patterns, List.get] at hm <;>
      rcases Option.map_eq_some'.mp hm with ⟨r, _, hr⟩ <;>
      subst hr <;> rfl

theorem c3_first_rule_wins_default_get_witness :
    scanLine "path(\"/x\")" = some (methodRouteOf (PatMatch.routeOnly "/x".data))
    ∧ (scanLineEntries "a.py" "path(\"/x\")").length ≤ 1
    ∧ (methodRouteOf (PatMatch.routeOnly "/x".data)).1 = "GET" := by
  refine ⟨?_, c3_first_rule_wins_default_get.2.1 "a.py" "path(\"/x\")", ?_⟩
  · exact c3_first_rule_wins_default_get.1 "path(\"/x\")" 3 (by decide)
      (PatMatch.routeOnly "/x".data) (by decide)
      (fun j hj => by
        interval_cases j <;> (simp only [route_patterns, List.get]; decide))
  · exact c3_first_rule_wins_default_get.2.2.1 4 (by decide) (Or.inr (Or.inr rfl))
      "re_path(\"/x\")" (PatMatch.routeOnly "/x".data) (by decide)

/-- C2 counterexample: the claim says every `RouteEntry` carries the
1-based line number of the matched line, but `scan_api_endpoints` records
no line number at all — two files whose only matching line sits at line 2
and at line 1 respectively produce *identical* entries, so no component of
a `RouteEntry` can be the matched line's 1-based number.  The produced
entry consists of method, path, file and truncated line text only. -/
theorem c2_route_entry_no_line_number_counterexample :
    scan_api_endpoints true [⟨"a.py", Node.file (some "x\n@app.get(\"/a\")")⟩]
      = scan_api_endpoints true [⟨"a.py", Node.file (some "@app.get(\"/a\")")⟩]
    ∧ scan_api_endpoints true [⟨"a.py", Node.file (some "x\n@app.get(\"/a\")")⟩]
      = [⟨"GET", "/a", "a.py", "@app.get(\"/a\")"⟩]
    ∧ (pySplitlines "x\n@app.get(\"/a\")").findIdx? (fun l => (scanLine l).isSome)
      = some 1
    ∧ (pySplitlines "@app.get(\"/a\")").findIdx? (fun l => (scanLine l).isSome)
      = some 0 := by
  refine ⟨by decide, by decide, by decide, by decide⟩

/-- C2 amended: every `RouteEntry` produced by the route extractor
consists of the HTTP method, the route path string, the file identifier,
and the matched line's raw text stripped and truncated to 200 characters —
with no line-number component — where the method and path come from the
first matching rule on some line of that file. -/
theorem c2_route_entry_fields_amended (repoRootExists : Bool)
    (entries : List Dirent) (e : RouteEntry)
    (he : e ∈ scan_api_endpoints repoRootExists entries) :
    ∃ d ∈ entries, ∃ decoded, d.node = Node.file decoded ∧ e.file = d.path ∧
      ∃ l ∈ pySplitlines (read_text_ignore decoded),
        ∃ mr, scanLine l = some mr ∧ e.method = mr.1 ∧ e.path = mr.2 ∧
          e.line = pyTake (pyStrip l) 200 ∧ e.line.data.length ≤ 200 := by
  unfold scan_api_endpoints at he
  by_cases hex : repoRootExists
  · rw [if_pos hex] at he
    rcases List.mem_flatMap.mp he with ⟨d, hd, hde⟩
    refine ⟨d, hd, ?_⟩
    unfold scanFileEntries at hde
    cases hnode : d.node with
    | dir => rw [hnode] at hde; cases hde
    | file decoded =>
      rw [hnode] at hde
      dsimp only at hde
      by_cases hsuf : ([".py", ".js", ".ts", ".tsx", ".jsx"].contains
          (pyLower (pathSuffix d.path)) : Bool) = true
      · rw [if_pos hsuf] at hde
        rcases List.mem_flatMap.mp hde with ⟨l, hl, hle⟩
        unfold scanLineEntries at hle
        cases hscan : scanLine l with
        | none => rw [hscan] at hle; cases hle
        | some mr =>
          rw [hscan] at hle
          rcases List.mem_singleton.mp hle with rfl
          refine ⟨decoded, rfl, rfl, l, hl, mr, hscan, rfl, rfl, rfl, ?_⟩
          simp [pyTake]
      · rw [if_neg hsuf] at hde
        cases hde
  · rw [if_neg hex] at he
    cases he

theorem c2_route_entry_fields_amended_witness :
    ∃ d ∈ [(⟨"a.py", Node.file (some "@app.get(\"/a\")")⟩ : Dirent)],
      ∃ decoded, d.node = Node.file decoded
        ∧ (⟨"GET", "/a", "a.py", "@app.get(\"/a\")"⟩ : RouteEntry).file = d.path ∧
      ∃ l ∈ pySplitlines (read_text_ignore decoded),
        ∃ mr, scanLine l = some mr
          ∧ (⟨"GET", "/a", "a.py", "@app.get(\"/a\")"⟩ : RouteEntry).method = mr.1
          ∧ (⟨"GET", "/a", "a.py", "@app.get(\"/a\")"⟩ : RouteEntry).path = mr.2
          ∧ (⟨"GET", "/a", "a.py", "@app.get(\"/a\")"⟩ : RouteEntry).line
              = pyTake (pyStrip l) 200
          ∧ (⟨"GET", "/a", "a.py", "@app.get(\"/a\")"⟩ : RouteEntry).line.data.length ≤ 200 :=
  c2_route_entry_fields_amended true [⟨"a.py", Node.file (some "@app.get(\"/a\")")⟩]
    ⟨"GET", "/a", "a.py", "@app.get(\"/a\")"⟩ (by decide)

theorem filterMap_middle {α β : Type} (g : α → Option β) (l1 l2 : List α) (a a' : α)
    (h : g a = g a') :
    (l1 ++ a :: l2).filterMap g
      = l1.filterMap g ++ [a'].filterMap g ++ l2.filterMap g := by
  simp only [List.filterMap_append, List.filterMap_cons, h]
  cases g a' <;> simp

theorem flatMap_middle {α β : Type} (g : α → List β) (l1 l2 : List α) (a a' : α)
    (h : g a = g a') :
    (l1 ++ a :: l2).flatMap g = l1.flatMap g ++ [a'].flatMap g ++ l2.flatMap g := by
  simp [List.flatMap_append, List.flatMap_cons, h]

/-- C7: during a repository scan (feature scoring over file contents, route
extraction), a file whose content is unreadable as text is processed with
its content treated as empty (`errors="ignore"` decoding) and the scan
continues: the result on a list containing the unreadable file equals the
results for the files before it, then for the same file with empty
content, then for the files after it — a single unreadable file never
aborts the scan, and the readable files' results are still returned. -/
theorem c7_unreadable_file_skipped (l1 l2 : List PyFile) (bad : PyFile)
    (keywords : List String) (hbad : bad.decoded = none)
    (e1 e2 : List Dirent) (badD : Dirent) (hbadD : badD.node = Node.file none) :
    score_files_for_feature (l1 ++ bad :: l2) keywords =
      score_files_for_feature l1 keywords
        ++ score_files_for_feature [⟨bad.relPath, some ""⟩] keywords
        ++ score_files_for_feature l2 keywords
    ∧ scan_api_endpoints true (e1 ++ badD :: e2) =
      scan_api_endpoints true e1
        ++ scan_api_endpoints true [⟨badD.path, Node.file (some "")⟩]
        ++ scan_api_endpoints true e2 := by
  constructor
  · have hscore : fileFeatureScore bad keywords
        = fileFeatureScore ⟨bad.relPath, some ""⟩ keywords := by
      unfold fileFeatureScore
      rw [hbad]
      simp [read_text_ignore]
    simp only [score_files_for_feature]
    refine filterMap_middle _ l1 l2 bad ⟨bad.relPath, some ""⟩ ?_
    simp [hscore]
  · have hfile : scanFileEntries badD
        = scanFileEntries ⟨badD.path, Node.file (some "")⟩ := by
      unfold scanFileEntries
      rw [hbadD]
      simp [read_text_ignore]
    simp only [scan_api_endpoints, if_pos]
    exact flatMap_middle scanFileEntries e1 e2 badD ⟨badD.path, Node.file (some "")⟩ hfile

theorem c7_unreadable_file_skipped_witness :
    score_files_for_feature
        [⟨"good.py", some "login"⟩, ⟨"bad.bin", none⟩, ⟨"tail.py", some "x"⟩] ["login"] =
      score_files_for_feature [⟨"good.py", some "login"⟩] ["login"]
        ++ score_files_for_feature [⟨"bad.bin", some ""⟩] ["login"]
        ++ score_files_for_feature [⟨"tail.py", some "x"⟩] ["login"]
    ∧ scan_api_endpoints true
        [⟨"good.py", Node.file (some "@app.get(\"/a\")")⟩, ⟨"bad.py", Node.file none⟩] =
      scan_api_endpoints true [⟨"good.py", Node.file (some "@app.get(\"/a\")")⟩]
        ++ scan_api_endpoints true [⟨"bad.py", Node.file (some "")⟩]
        ++ scan_api_endpoints true [] := by
  have h := c7_unreadable_file_skipped [⟨"good.py", some "login"⟩] [⟨"tail.py", some "x"⟩]
    ⟨"bad.bin", none⟩ ["login"] rfl
    [⟨"good.py", Node.file (some "@app.get(\"/a\")")⟩] [] ⟨"bad.py", Node.file none⟩ rfl
  exact ⟨h.1, h.2⟩

/-- C8 counterexample: the claim says both `explain_file` and
`get_file_content` return an explicit "not a file" message for a directory
and do not raise; but `get_file_content` checks only `exists()` and then
calls `read_text` directly, which on an existing directory raises
`IsADirectoryError` — here on a filesystem whose resolved target contains
the directory `sub`. -/
theorem c8_get_file_content_raises_counterexample :
    get_file_content [("root", Node.dir), ("root/sub", Node.dir)] "root" none none "sub" 1 50
      = Except.error PyErr.isADirectoryError
    ∧ explain_file [("root", Node.dir), ("root/sub", Node.dir)] "root" none none "sub"
      = "sub is not a file." :=
  ⟨rfl, by decide⟩

/-- C8 amended: for a path that resolves under the target directory but is
a directory, `explain_file` returns the explicit "not a file" message (it
guards with `is_file()` and raises nothing), while `get_file_content` —
which checks only existence — raises `IsADirectoryError` from the
unguarded `read_text` call instead of returning a message. -/
theorem c8_not_a_file_amended (fs : Fs) (codebaseRoot : String)
    (repoName folderPath : Option String) (filePath targetDir : String)
    (startLine numLines : Int)
    (hres : resolve_target_dir fs codebaseRoot repoName folderPath = some targetDir)
    (hdir : fsLookup fs (joinPath targetDir filePath) = some Node.dir) :
    explain_file fs codebaseRoot repoName folderPath filePath
      = filePath ++ " is not a file."
    ∧ get_file_content fs codebaseRoot repoName folderPath filePath startLine numLines
      = Except.error PyErr.isADirectoryError := by
  constructor
  · unfold explain_file
    rw [hres]
    dsimp only
    rw [hdir]
  · unfold get_file_content
    rw [hres]
    dsimp only
    rw [hdir]

theorem c8_not_a_file_amended_witness :
    explain_file [("root", Node.dir), ("root/d", Node.dir)] "root" none none "d"
      = "d is not a file."
    ∧ get_file_content [("root", Node.dir), ("root/d", Node.dir)] "root" none none "d" 1 50
      = Except.error PyErr.isADirectoryError :=
  c8_not_a_file_amended [("root", Node.dir), ("root/d", Node.dir)] "root" none none
    "d" "root" 1 50 (by decide) (by decide)

/-- C9: `get_code_files` returns an empty sequence rather than raising
when the root does not exist or is not a directory; otherwise every
returned entry is a regular file (never a directory) whose suffix belongs
to `CODE_EXTENSIONS`. -/
theorem c9_get_code_files_soft_fail_filter (root : ScanRoot) :
    ((root.rootExists = false ∨ root.isDir = false) → get_code_files root = [])
    ∧ ∀ d ∈ get_code_files root, nodeIsFile d.node = true
        ∧ pathSuffix d.path ∈ CODE_EXTENSIONS := by
  constructor
  · intro h
    unfold get_code_files
    rcases h with h | h <;> simp [h]
  · intro d hd
    unfold get_code_files at hd
    by_cases h : (!root.rootExists || !root.isDir) = true
    · rw [if_pos h] at hd
      cases hd
    · rw [if_neg h] at hd
      rcases List.mem_filter.mp hd with ⟨_, hcond⟩
      rw [Bool.and_eq_true] at hcond
      refine ⟨hcond.1, ?_⟩
      simpa using hcond.2

theorem c9_get_code_files_soft_fail_filter_witness :
    get_code_files ⟨false, true, [⟨"a.py", Node.file none⟩]⟩ = []
    ∧ (nodeIsFile (Node.file (none : Option String)) = true
        ∧ pathSuffix "a.py" ∈ CODE_EXTENSIONS) :=
  ⟨(c9_get_code_files_soft_fail_filter ⟨false, true, [⟨"a.py", Node.file none⟩]⟩).1
      (Or.inl rfl),
   (c9_get_code_files_soft_fail_filter ⟨true, true, [⟨"a.py", Node.file none⟩]⟩).2
      ⟨"a.py", Node.file none⟩ (by decide)⟩

/-- C10 counterexample: the claim quantifies over every integer
`num_lines` and asserts the window is `[max(0, start_line-1),
min(len, start+num))` with at most `num_lines` lines; but for
`num_lines = -1` the Python slice end index is negative and counts from
the end of the file: on a three-line file with `start_line = 1` the
selected window is the first two lines — two lines, not "at most -1", and
not the empty interval the claimed bounds describe. -/
theorem c10_negative_num_lines_counterexample :
    select_window ["a", "b", "c"] 1 (-1) = ["a", "b"]
    ∧ ¬(((select_window ["a", "b", "c"] 1 (-1)).length : Int) ≤ -1)
    ∧ select_window ["a", "b", "c"] 1 (-1) ≠ [] := by
  refine ⟨by decide, by decide, by decide⟩

/-- C10 amended: `get_file_content` never indexes outside the file's
lines for any integer arguments (the slice is total); and for every
`start_line` and every `num_lines ≥ 0` the selected window is exactly
`num_lines`-bounded: it equals dropping `max(0, start_line-1)` lines and
taking `num_lines`, hence has at most `num_lines` lines (possibly zero,
e.g. when `start_line` is beyond the end).  For `num_lines < 0` the end
index follows Python's negative-index slice semantics instead. -/
theorem c10_window_bounds_amended (lines : List String) (startLine numLines : Int)
    (h : 0 ≤ numLines) :
    select_window lines startLine numLines
      = (lines.drop (startLine - 1).toNat).take numLines.toNat
    ∧ (select_window lines startLine numLines).length ≤ numLines.toNat := by
  have take_min : ∀ (l' : List String) (n : Nat), l'.take (min l'.length n) = l'.take n := by
    intro l' n
    rw [min_comm, ← List.take_take, List.take_length]
  have ha : (0 : Int) ≤ max 0 (startLine - 1) := le_max_left _ _
  have hb : (0 : Int) ≤ min (lines.length : Int) (max 0 (startLine - 1) + numLines) := by
    refine le_min (by positivity) (by omega)
  have heq : select_window lines startLine numLines
      = (lines.drop (startLine - 1).toNat).take numLines.toNat := by
    unfold select_window pySlice pyIndexNorm
    dsimp only
    rw [if_neg (not_lt.mpr hb), if_neg (not_lt.mpr ha)]
    have hmin : min (min (lines.length : Int) (max 0 (startLine - 1) + numLines))
        (lines.length : Int) = min (lines.length : Int) (max 0 (startLine - 1) + numLines) := by
      omega
    rw [hmin]
    by_cases hX : max 0 (startLine - 1) ≤ (lines.length : Int)
    · have ha' : (min (max 0 (startLine - 1)) (lines.length : Int)).toNat
          = (startLine - 1).toNat := by omega
      rw [ha', List.drop_take]
      have hlen : (lines.drop (startLine - 1).toNat).length
          = lines.length - (startLine - 1).toNat := by simp
      have harith : (min (lines.length : Int) (max 0 (startLine - 1) + numLines)).toNat
            - (startLine - 1).toNat
          = min (lines.length - (startLine - 1).toNat) numLines.toNat := by omega
      rw [harith, ← hlen, take_min]
    · have hL1 : (lines.take
          (min (lines.length : Int) (max 0 (startLine - 1) + numLines)).toNat).length
          ≤ (min (max 0 (startLine - 1)) (lines.length : Int)).toNat := by
        have := List.length_take_le
          (min (lines.length : Int) (max 0 (startLine - 1) + numLines)).toNat lines
        omega
      have hL2 : lines.length ≤ (startLine - 1).toNat := by omega
      rw [List.drop_eq_nil_of_le hL1, List.drop_eq_nil_of_le hL2]
      simp
  exact ⟨heq, by rw [heq]; exact List.length_take_le _ _⟩

theorem c10_window_bounds_amended_witness :
    select_window ["a", "b", "c"] 2 50 = (["a", "b", "c"].drop ((2 : Int) - 1).toNat).take (50 : Int).toNat
    ∧ (select_window ["a", "b", "c"] 2 50).length ≤ (50 : Int).toNat :=
  c10_window_bounds_amended ["a", "b", "c"] 2 50 (by decide)
